import Mathlib

set_option autoImplicit false

namespace BibReplace

/-- A Python value as it flows through `bib_replace.py`: every field value is a
string, and `dict.get` with no default can also produce `None`. -/
inductive Val where
  | none
  | str (s : String)
deriving DecidableEq

/-- Python `str(v)` for the values above (`str(None)` is the string `None`). -/
def pyStr : Val → String
  | Val.none => "None"
  | Val.str s => s

/-- Python truthiness as used in `if not title`: `None` and the empty string
are falsy. -/
def Val.falsy : Val → Bool
  | Val.none => true
  | Val.str s => s == ""

/-- A bibliographic entry: a Python dict from field name to value, rendered as
an association list in insertion order (keys are unique in every dict the
script builds). -/
abbrev Entry := List (String × Val)

/-- Python `d.get(k, default)`. -/
def Entry.getD (e : Entry) (k : String) (d : Val) : Val :=
  (List.lookup k e).getD d

/-- Python `d[k] = v`: overwrite the value in place when the key exists,
otherwise append the new pair at the end. -/
def Entry.set (e : Entry) (k : String) (v : Val) : Entry :=
  if (List.lookup k e).isSome then
    e.map (fun p => if p.1 = k then (k, v) else p)
  else
    e ++ [(k, v)]

/-- `REVERSED_KEYS` of `bib_replace.py`, the field whitelist, as the list of
its elements. -/
def REVERSED_KEYS : List String :=
  ["author", "booktitle", "doi", "title", "year", "ID", "ENTRYTYPE"]

/-- The whitelist restriction applied to a fetched record in `main`:
the dict comprehension keeping exactly the `REVERSED_KEYS` fields present in
the record. -/
def whitelistFilter (e : Entry) : Entry :=
  REVERSED_KEYS.filterMap (fun k => (List.lookup k e).map (fun v => (k, v)))

/-- The character set of the strip call in `compare_entries`: both curly
braces and the space character. -/
def stripSet : List Char := ['{', '}', ' ']

/-- The Python strip over that set: remove all leading and trailing
characters belonging to the set. -/
def pyStrip (s : String) : String :=
  String.mk (((s.toList.dropWhile (fun c => stripSet.contains c)).reverse.dropWhile
    (fun c => stripSet.contains c)).reverse)

/-- `ignored_keys` of `compare_entries`: keys never compared because the
remote identifier always differs from the local one. -/
def ignored_keys : List String := ["ID", "ENTRYTYPE"]

/-- `compare_entries` of `bib_replace.py`: iterate over the fields of
`new_entry`, skip the ignored keys, compare values after the brace/space
strip of their string forms, and record each difference as the key with the
raw old value (`old_entry.get(key)`, possibly `None`) and the raw new value. -/
def compare_entries (old_entry new_entry : Entry) : List (String × Val × Val) :=
  new_entry.filterMap (fun p =>
    if p.1 ∈ ignored_keys then Option.none
    else if pyStrip (pyStr (Entry.getD old_entry p.1 (Val.str ""))) ≠ pyStrip (pyStr p.2) then
      Option.some (p.1, Entry.getD old_entry p.1 Val.none, p.2)
    else Option.none)

/-- What the outside world feeds one call of `query_dblp`: the search request
with its JSON decoding and hit-list navigation (it can raise, or produce an
optional hit list, and extracting a hit's key can itself raise), the record
fetch by key (a status code and body, or a raise), and the BibTeX parse of a
body (a list of entries, or a raise). Errors carry the exception text. -/
structure RemoteWorld where
  search : Except String (Option (List (Except String String)))
  fetch : String → Except String (Nat × String)
  parseBib : String → Except String (List Entry)

/-- `query_dblp` of `bib_replace.py` over an explicit external world, also
returning the error-log lines it writes. Every raising step is caught by the
surrounding try block and turned into no result after logging the title; the
no-hit, non-200-status and no-parsed-entry cases log the title without an
exception text. -/
def query_dblp (title : String) (w : RemoteWorld) : Option Entry × List String :=
  match w.search with
  | Except.error e => (Option.none, ["Error querying DBLP for " ++ title ++ ": " ++ e])
  | Except.ok Option.none => (Option.none, ["Error querying DBLP for " ++ title])
  | Except.ok (Option.some []) => (Option.none, ["Error querying DBLP for " ++ title])
  | Except.ok (Option.some (hit :: _)) =>
    match hit with
    | Except.error e => (Option.none, ["Error querying DBLP for " ++ title ++ ": " ++ e])
    | Except.ok dblp_key =>
      match w.fetch dblp_key with
      | Except.error e => (Option.none, ["Error querying DBLP for " ++ title ++ ": " ++ e])
      | Except.ok (status, body) =>
        if status ≠ 200 then (Option.none, ["Error querying DBLP for " ++ title])
        else
          match w.parseBib body with
          | Except.error e => (Option.none, ["Error querying DBLP for " ++ title ++ ": " ++ e])
          | Except.ok [] => (Option.none, ["Error querying DBLP for " ++ title])
          | Except.ok (e0 :: _) => (Option.some e0, [])

/-- The outcome of the loop body of `main` for one entry. -/
inductive StepResult where
  | changed (e : Entry)
  | unchanged (e : Entry)
  | no_title
  | not_found
deriving DecidableEq

/-- One iteration of the loop in `main`: a missing or empty title
short-circuits; otherwise the title is looked up; on a hit the remote entry is
restricted to `REVERSED_KEYS`, diffed against the local entry, given the local
`ID`, and classified `changed` exactly when the diff is nonempty (the source
tests `if diff` first; the branches here are the same two). -/
def reconcile (lookup : String → Option Entry) (entry : Entry) : StepResult :=
  if (Entry.getD entry "title" Val.none).falsy then StepResult.no_title
  else
    match lookup (pyStr (Entry.getD entry "title" Val.none)) with
    | Option.none => StepResult.not_found
    | Option.some q =>
      if compare_entries entry (whitelistFilter q) = [] then
        StepResult.unchanged entry
      else
        StepResult.changed
          (Entry.set (whitelistFilter q) "ID" (Entry.getD entry "ID" Val.none))

/-- The accumulating state of `main`: the output list and the four
classification buckets (lists of the entries' `ID` values). -/
structure RunState where
  updated_entries : List Entry
  changed_ids : List Val
  unchanged_ids : List Val
  no_title_ids : List Val
  not_found_ids : List Val
deriving DecidableEq

/-- The state of `main` before the loop: everything empty. -/
def initState : RunState := RunState.mk [] [] [] [] []

/-- The loop body of `main`: classify one entry, append its `ID` to the
matching bucket, and append an entry to the output list only when the entry
was kept or replaced (the `no_title` and `not_found` branches of the source
append nothing to `updated_entries`). -/
def process_one (lookup : String → Option Entry) (st : RunState) (entry : Entry) :
    RunState :=
  match reconcile lookup entry with
  | StepResult.changed e =>
    RunState.mk (st.updated_entries ++ [e])
      (st.changed_ids ++ [Entry.getD entry "ID" Val.none]) st.unchanged_ids
      st.no_title_ids st.not_found_ids
  | StepResult.unchanged e =>
    RunState.mk (st.updated_entries ++ [e]) st.changed_ids
      (st.unchanged_ids ++ [Entry.getD entry "ID" Val.none])
      st.no_title_ids st.not_found_ids
  | StepResult.no_title =>
    RunState.mk st.updated_entries st.changed_ids st.unchanged_ids
      (st.no_title_ids ++ [Entry.getD entry "ID" Val.none]) st.not_found_ids
  | StepResult.not_found =>
    RunState.mk st.updated_entries st.changed_ids st.unchanged_ids
      st.no_title_ids (st.not_found_ids ++ [Entry.getD entry "ID" Val.none])

/-- The loop of `main` over the parsed input entries, with the remote lookup
abstracted as a function from title to optional record. -/
def main_loop (lookup : String → Option Entry) (entries : List Entry) : RunState :=
  entries.foldl (process_one lookup) initState

/-- Modelled from the spec: the response the search endpoint gives to one
attempt — a throttling signal, a successful response with zero hits, or a
successful response whose first hit carries a canonical key. The retry
wrapper of the Remote Lookup Client exists only in the later revision of the
script, which is not under src; its behavior here follows the spec, section
4.2, steps 1 to 5. -/
inductive SearchOutcome where
  | rateLimited
  | noHit
  | hit (key : String)

/-- Modelled from the spec: the rest of the outside world seen by the retry
wrapper — the per-attempt search outcome, and the outcome of fetching and
parsing the record of a key (no record on a non-success status or a parse
failure). -/
structure RetryWorld where
  searchR : Nat → SearchOutcome
  fetchR : String → Option Entry

/-- An externally visible event of the lookup client: sleeping for a number
of seconds, issuing the search request of a given attempt, or issuing the
record-fetch request for a given key. -/
inductive TraceEv where
  | sleep (secs : Nat)
  | request (attempt : Nat)
  | fetchReq (key : String)
deriving DecidableEq

/-- The trace events that are network calls: search requests and record
fetches. -/
def isCall : TraceEv → Bool
  | TraceEv.sleep _ => false
  | TraceEv.request _ => true
  | TraceEv.fetchReq _ => true

/-- A sleep event of at least one second. -/
def sleepAtLeastOne : TraceEv → Bool
  | TraceEv.sleep s => decide (1 ≤ s)
  | TraceEv.request _ => false
  | TraceEv.fetchReq _ => false

/-- Modelled from the spec: the fixed maximum attempt count of the retry
wrapper. -/
def MAX_ATTEMPTS : Nat := 5

/-- Modelled from the spec: the attempt loop of the retry wrapper. Each
attempt first sleeps one second (the unconditional polite delay), then issues
its search request; a throttled attempt sleeps two to the power of the
attempt index plus one second and retries; zero hits yield no result; a hit
is followed by the record fetch for its key — itself a network call preceded
by the unconditional one-second delay — whose outcome is the result; running
out of attempts yields no result. `fuel` counts the attempts still
allowed. -/
def lookup_go (w : RetryWorld) (attempt : Nat) :
    Nat → Option Entry × List TraceEv
  | 0 => (Option.none, [])
  | fuel + 1 =>
    match w.searchR attempt with
    | SearchOutcome.noHit => (Option.none, [TraceEv.sleep 1, TraceEv.request attempt])
    | SearchOutcome.hit key =>
      (w.fetchR key,
        [TraceEv.sleep 1, TraceEv.request attempt, TraceEv.sleep 1, TraceEv.fetchReq key])
    | SearchOutcome.rateLimited =>
      ((lookup_go w (attempt + 1) fuel).1,
        TraceEv.sleep 1 :: TraceEv.request attempt ::
          TraceEv.sleep (2 ^ attempt + 1) :: (lookup_go w (attempt + 1) fuel).2)

/-- Modelled from the spec: a full lookup run, starting at attempt 0 with
`MAX_ATTEMPTS` attempts available. -/
def lookup_retry (w : RetryWorld) : Option Entry × List TraceEv :=
  lookup_go w 0 MAX_ATTEMPTS

/-- Checks that each adjacent pair of trace events whose second member is a
network call has a sleep of at least one second as its first member. -/
def delayedPairs : List TraceEv → Bool
  | [] => true
  | [_] => true
  | e1 :: e2 :: rest => (!isCall e2 || sleepAtLeastOne e1) && delayedPairs (e2 :: rest)

/-- Checks that every network call in a trace is immediately preceded by a
sleep of at least one second (so in particular the trace cannot begin with a
network call). -/
def requestsDelayed : List TraceEv → Bool
  | [] => true
  | e :: rest => !isCall e && delayedPairs (e :: rest)

/-- The entry identifier as `main` reads it: `entry.get` of the `ID` key. -/
def idOf (e : Entry) : Val := Entry.getD e "ID" Val.none

/-- The entry the loop body appends to the output list, when any. -/
def emittedEntry (lookup : String → Option Entry) (entry : Entry) : Option Entry :=
  match reconcile lookup entry with
  | StepResult.changed e => Option.some e
  | StepResult.unchanged e => Option.some e
  | StepResult.no_title => Option.none
  | StepResult.not_found => Option.none

/-- A concrete lookup oracle for closed instances: the remote record has a
different title, one non-whitelisted field, and its own DBLP key. -/
def lkpA : String → Option Entry :=
  fun _ => Option.some [("title", Val.str "Bar"), ("junk", Val.str "x"), ("ID", Val.str "DBLPxyz")]

/-- A concrete local entry for closed instances. -/
def entryA : Entry := [("ID", Val.str "a1"), ("title", Val.str "Foo")]

/-- The entry `reconcile lkpA entryA` emits: whitelisted remote fields with
the local identifier written over the remote one. -/
def chA : Entry := [("title", Val.str "Bar"), ("ID", Val.str "a1")]

/-- A concrete world whose search request raises. -/
def w0 : RemoteWorld :=
  RemoteWorld.mk (Except.error "boom") (fun _ => Except.error "x")
    (fun _ => Except.error "y")

/-- A concrete retry world that is permanently throttled. -/
def rlWorld : RetryWorld :=
  RetryWorld.mk (fun _ => SearchOutcome.rateLimited) (fun _ => Option.none)

lemma lookup_overwrite (e : Entry) (k : String) (v : Val)
    (h : (List.lookup k e).isSome = true) :
    List.lookup k (e.map (fun p => if p.1 = k then (k, v) else p)) = Option.some v := by
  induction e with
  | nil => simp [List.lookup] at h
  | cons p t ih =>
    by_cases hp : (k == p.1)
    · have hpk : p.1 = k := (beq_iff_eq.mp hp).symm
      rw [List.map_cons, if_pos hpk]
      simp [List.lookup]
    · simp only [Bool.not_eq_true] at hp
      have hpk : ¬ p.1 = k := by
        intro hc
        rw [hc] at hp
        simp at hp
      simp only [List.lookup, hp] at h
      rw [List.map_cons, if_neg hpk]
      simp only [List.lookup, hp]
      exact ih h

lemma lookup_append_self (e : Entry) (k : String) (v : Val)
    (h : List.lookup k e = Option.none) :
    List.lookup k (e ++ [(k, v)]) = Option.some v := by
  induction e with
  | nil => simp [List.lookup]
  | cons p t ih =>
    by_cases hp : (k == p.1)
    · simp [List.lookup, hp] at h
    · simp only [Bool.not_eq_true] at hp
      simp only [List.cons_append, List.lookup, hp] at h ⊢
      exact ih h

lemma lookup_set_self (e : Entry) (k : String) (v : Val) :
    List.lookup k (Entry.set e k v) = Option.some v := by
  unfold Entry.set
  split
  · exact lookup_overwrite e k v (by assumption)
  · rename_i h
    apply lookup_append_self
    cases hc : List.lookup k e with
    | none => rfl
    | some w => rw [hc] at h; simp at h

lemma fst_mem_set (e : Entry) (k : String) (v : Val) (p : String × Val)
    (hp : p ∈ Entry.set e k v) : p.1 = k ∨ p ∈ e := by
  unfold Entry.set at hp
  split at hp
  · rcases List.mem_map.mp hp with ⟨q, hq, hqe⟩
    by_cases h1 : q.1 = k
    · left
      rw [← hqe]
      simp [h1]
    · right
      rw [← hqe]
      simpa [h1] using hq
  · rcases List.mem_append.mp hp with h1 | h1
    · right
      exact h1
    · left
      rw [List.mem_singleton.mp h1]

lemma fst_mem_whitelistFilter (e : Entry) (p : String × Val)
    (hp : p ∈ whitelistFilter e) : p.1 ∈ REVERSED_KEYS := by
  rcases List.mem_filterMap.mp hp with ⟨k, hk, hf⟩
  rcases Option.map_eq_some'.mp hf with ⟨v, _, hpv⟩
  rw [← hpv]
  exact hk

lemma compare_mem_inv (old_entry new_entry : Entry) (p : String × Val × Val)
    (hp : p ∈ compare_entries old_entry new_entry) :
    ∃ v, (p.1, v) ∈ new_entry ∧ p.1 ∉ ignored_keys ∧
      pyStrip (pyStr (Entry.getD old_entry p.1 (Val.str ""))) ≠ pyStrip (pyStr v) := by
  rcases List.mem_filterMap.mp hp with ⟨q, hq, hf⟩
  by_cases h1 : q.1 ∈ ignored_keys
  · simp [h1] at hf
  · by_cases h2 : pyStrip (pyStr (Entry.getD old_entry q.1 (Val.str ""))) = pyStrip (pyStr q.2)
    · simp [h1, h2] at hf
    · have hpq : (q.1, Entry.getD old_entry q.1 Val.none, q.2) = p := by
        simpa [h1, h2] using hf
      refine ⟨q.2, ?_, ?_, ?_⟩
      · rw [← hpq]
        simpa using hq
      · rw [← hpq]
        exact h1
      · rw [← hpq]
        exact h2

lemma reconcile_eq_of (lookup : String → Option Entry) (entry q : Entry)
    (hf : (Entry.getD entry "title" Val.none).falsy = false)
    (hl : lookup (pyStr (Entry.getD entry "title" Val.none)) = Option.some q) :
    reconcile lookup entry =
      if compare_entries entry (whitelistFilter q) = [] then StepResult.unchanged entry
      else
        StepResult.changed
          (Entry.set (whitelistFilter q) "ID" (Entry.getD entry "ID" Val.none)) := by
  simp [reconcile, hf, hl]

lemma reconcile_changed_inv (lookup : String → Option Entry) (entry e : Entry)
    (h : reconcile lookup entry = StepResult.changed e) :
    ∃ q, lookup (pyStr (Entry.getD entry "title" Val.none)) = Option.some q ∧
      ¬ compare_entries entry (whitelistFilter q) = [] ∧
      e = Entry.set (whitelistFilter q) "ID" (Entry.getD entry "ID" Val.none) := by
  by_cases hf : (Entry.getD entry "title" Val.none).falsy = true
  · simp [reconcile, hf] at h
  · simp only [Bool.not_eq_true] at hf
    cases hl : lookup (pyStr (Entry.getD entry "title" Val.none)) with
    | none => simp [reconcile, hf, hl] at h
    | some q =>
      rw [reconcile_eq_of lookup entry q hf hl] at h
      by_cases hc : compare_entries entry (whitelistFilter q) = []
      · rw [if_pos hc] at h
        simp at h
      · rw [if_neg hc] at h
        injection h with h
        exact ⟨q, rfl, hc, h.symm⟩

lemma reconcile_unchanged_inv (lookup : String → Option Entry) (entry e : Entry)
    (h : reconcile lookup entry = StepResult.unchanged e) : e = entry := by
  by_cases hf : (Entry.getD entry "title" Val.none).falsy = true
  · simp [reconcile, hf] at h
  · simp only [Bool.not_eq_true] at hf
    cases hl : lookup (pyStr (Entry.getD entry "title" Val.none)) with
    | none => simp [reconcile, hf, hl] at h
    | some q =>
      rw [reconcile_eq_of lookup entry q hf hl] at h
      by_cases hc : compare_entries entry (whitelistFilter q) = []
      · rw [if_pos hc] at h
        injection h with h
        exact h.symm
      · rw [if_neg hc] at h
        simp at h

lemma foldl_updated (lookup : String → Option Entry) (l : List Entry) :
    ∀ st : RunState,
      (List.foldl (process_one lookup) st l).updated_entries
        = st.updated_entries ++ l.filterMap (emittedEntry lookup) := by
  induction l with
  | nil => intro st; simp
  | cons e t ih =>
    intro st
    rw [List.foldl_cons, ih]
    cases hr : reconcile lookup e <;>
      simp [process_one, hr, emittedEntry, List.filterMap_cons]

/-- The total size of the four classification buckets. -/
def bucketsLen (st : RunState) : Nat :=
  st.changed_ids.length + st.unchanged_ids.length + st.no_title_ids.length
    + st.not_found_ids.length

lemma foldl_bucketsLen (lookup : String → Option Entry) (l : List Entry) :
    ∀ st : RunState,
      bucketsLen (List.foldl (process_one lookup) st l) = bucketsLen st + l.length := by
  induction l with
  | nil => intro st; simp
  | cons e t ih =>
    intro st
    rw [List.foldl_cons, ih]
    have hstep : bucketsLen (process_one lookup st e) = bucketsLen st + 1 := by
      cases hr : reconcile lookup e <;> simp [process_one, hr, bucketsLen] <;> omega
    rw [hstep]
    simp [Nat.add_comm, Nat.add_assoc, Nat.add_left_comm]

lemma foldl_upd_len (lookup : String → Option Entry) (l : List Entry) :
    ∀ st : RunState,
      st.updated_entries.length = st.changed_ids.length + st.unchanged_ids.length →
      (List.foldl (process_one lookup) st l).updated_entries.length
        = (List.foldl (process_one lookup) st l).changed_ids.length
          + (List.foldl (process_one lookup) st l).unchanged_ids.length := by
  induction l with
  | nil => intro st h; simpa using h
  | cons e t ih =>
    intro st h
    rw [List.foldl_cons]
    apply ih
    cases hr : reconcile lookup e <;> simp [process_one, hr] <;> omega

lemma idOf_emitted (lookup : String → Option Entry) (entry x : Entry)
    (h : emittedEntry lookup entry = Option.some x) : idOf x = idOf entry := by
  unfold emittedEntry at h
  cases hr : reconcile lookup entry <;> rw [hr] at h
  case changed e1 =>
    injection h with h
    subst h
    rcases reconcile_changed_inv lookup entry e1 hr with ⟨q, _, _, he⟩
    rw [he]
    simp [idOf, Entry.getD, lookup_set_self]
  case unchanged e1 =>
    injection h with h
    subst h
    rw [reconcile_unchanged_inv lookup entry e1 hr]
  case no_title => simp at h
  case not_found => simp at h

lemma map_idOf_filterMap (lookup : String → Option Entry) (l : List Entry) :
    (l.filterMap (emittedEntry lookup)).map idOf
      = (l.filter (fun e => (emittedEntry lookup e).isSome)).map idOf := by
  induction l with
  | nil => rfl
  | cons e t ih =>
    cases he : emittedEntry lookup e with
    | none => simp [List.filterMap_cons, List.filter_cons, he, ih]
    | some x => simp [List.filterMap_cons, List.filter_cons, he, ih, idOf_emitted lookup e x he]

lemma lookup_go_none (w : RetryWorld) :
    ∀ (fuel a : Nat),
      (∀ i, a ≤ i → i < a + fuel → w.searchR i = SearchOutcome.rateLimited) →
      (lookup_go w a fuel).1 = Option.none := by
  intro fuel
  induction fuel with
  | zero => intro a _; rfl
  | succ n ih =>
    intro a h
    have ha : w.searchR a = SearchOutcome.rateLimited := h a (Nat.le_refl a) (by omega)
    simp only [lookup_go, ha]
    exact ih (a + 1) (fun i h1 h2 => h i (by omega) (by omega))

lemma lookup_go_sleep_mem (w : RetryWorld) :
    ∀ (fuel a j : Nat), a ≤ j → j < a + fuel →
      (∀ i, a ≤ i → i ≤ j → w.searchR i = SearchOutcome.rateLimited) →
      TraceEv.sleep (2 ^ j + 1) ∈ (lookup_go w a fuel).2 := by
  intro fuel
  induction fuel with
  | zero => intro a j h1 h2 _; exact absurd (Nat.lt_of_le_of_lt h1 h2) (by omega)
  | succ n ih =>
    intro a j h1 h2 h3
    have ha : w.searchR a = SearchOutcome.rateLimited := h3 a (Nat.le_refl a) h1
    simp only [lookup_go, ha]
    by_cases hj : j = a
    · subst hj
      exact List.mem_cons_of_mem _ (List.mem_cons_of_mem _ (List.mem_cons_self _ _))
    · have hm := ih (a + 1) j (by omega) (by omega) (fun i hi1 hi2 => h3 i (by omega) hi2)
      exact List.mem_cons_of_mem _ (List.mem_cons_of_mem _ (List.mem_cons_of_mem _ hm))

lemma lookup_go_request_mem (w : RetryWorld) :
    ∀ (fuel a j : Nat), a ≤ j → j < a + fuel →
      (∀ i, a ≤ i → i < j → w.searchR i = SearchOutcome.rateLimited) →
      TraceEv.request j ∈ (lookup_go w a fuel).2 := by
  intro fuel
  induction fuel with
  | zero => intro a j h1 h2 _; exact absurd (Nat.lt_of_le_of_lt h1 h2) (by omega)
  | succ n ih =>
    intro a j h1 h2 h3
    by_cases hj : j = a
    · subst hj
      cases hr : w.searchR j <;> simp [lookup_go, hr]
    · have ha : w.searchR a = SearchOutcome.rateLimited := h3 a (Nat.le_refl a) (by omega)
      simp only [lookup_go, ha]
      have hm := ih (a + 1) j (by omega) (by omega) (fun i hi1 hi2 => h3 i (by omega) hi2)
      exact List.mem_cons_of_mem _ (List.mem_cons_of_mem _ (List.mem_cons_of_mem _ hm))

lemma delayedPairs_sleep_cons (s : Nat) (l : List TraceEv)
    (h : requestsDelayed l = true) :
    delayedPairs (TraceEv.sleep s :: l) = true := by
  cases l with
  | nil => rfl
  | cons e t =>
    simp only [requestsDelayed, Bool.and_eq_true] at h
    simp [delayedPairs, h.1, h.2]

lemma requestsDelayed_go (w : RetryWorld) :
    ∀ (fuel a : Nat), requestsDelayed (lookup_go w a fuel).2 = true := by
  intro fuel
  induction fuel with
  | zero => intro a; rfl
  | succ n ih =>
    intro a
    cases hr : w.searchR a with
    | rateLimited =>
      have h1 : delayedPairs
          (TraceEv.sleep (2 ^ a + 1) :: (lookup_go w (a + 1) n).2) = true :=
        delayedPairs_sleep_cons _ _ (ih (a + 1))
      simp [lookup_go, hr, requestsDelayed, delayedPairs, isCall, sleepAtLeastOne, h1]
    | noHit =>
      simp [lookup_go, hr, requestsDelayed, delayedPairs, isCall, sleepAtLeastOne]
    | hit key =>
      simp [lookup_go, hr, requestsDelayed, delayedPairs, isCall, sleepAtLeastOne]

/-- C1: the claim that the output written at the end of a run has the same
length and identifier set as the input fails on this code: an entry with no
title is classified `no_title` and never appended to the output list, so a
one-entry input produces an empty output (the `not_found` branch likewise
appends nothing). -/
theorem c1_counterexample :
    (main_loop (fun _ => Option.none) [[("ID", Val.str "a1")]]).updated_entries.length + 1
      = ([[("ID", Val.str "a1")]] : List Entry).length
    ∧ (main_loop (fun _ => Option.none) [[("ID", Val.str "a1")]]).no_title_ids
      = [Val.str "a1"]
    ∧ (main_loop (fun _ => Option.none) [[("ID", Val.str "a1")]]).updated_entries = [] := by
  decide

/-- C1 (amended): every input entry lands in exactly one classification
bucket, the four buckets together count every input entry exactly once, and
the output contains exactly one entry per input classified `changed` or
`unchanged`; entries classified `no_title` or `not_found` are dropped from
the output rather than emitted unchanged. -/
theorem c1_output_partition (lookup : String → Option Entry) (entries : List Entry) :
    (main_loop lookup entries).changed_ids.length
        + (main_loop lookup entries).unchanged_ids.length
        + (main_loop lookup entries).no_title_ids.length
        + (main_loop lookup entries).not_found_ids.length = entries.length
    ∧ (main_loop lookup entries).updated_entries.length
        = (main_loop lookup entries).changed_ids.length
          + (main_loop lookup entries).unchanged_ids.length := by
  constructor
  · have h := foldl_bucketsLen lookup entries initState
    simpa [main_loop, bucketsLen, initState] using h
  · exact foldl_upd_len lookup entries initState (by simp [initState])

/-- C2: every output entry keeps the identifier of its input entry: the IDs of
the output list equal, in order, the IDs of the inputs that emit an output
entry; and a replaced (`changed`) entry carries the `ID` key mapped to the
local entry's identifier, written over the filtered remote record before it
is emitted. -/
theorem c2_id_invariant (lookup : String → Option Entry) (entries : List Entry) :
    ((main_loop lookup entries).updated_entries.map idOf
      = (entries.filter (fun e => (emittedEntry lookup e).isSome)).map idOf)
    ∧ ∀ entry e, reconcile lookup entry = StepResult.changed e →
        List.lookup "ID" e = Option.some (idOf entry) := by
  constructor
  · have h := foldl_updated lookup entries initState
    have h2 : (main_loop lookup entries).updated_entries
        = entries.filterMap (emittedEntry lookup) := by
      simpa [main_loop, initState] using h
    rw [h2, map_idOf_filterMap]
  · intro entry e he
    rcases reconcile_changed_inv lookup entry e he with ⟨q, _, _, hset⟩
    rw [hset]
    exact lookup_set_self _ _ _

/-- C2 witness at a concrete input. -/
theorem c2_witness : List.lookup "ID" chA = Option.some (idOf entryA) :=
  (c2_id_invariant lkpA []).2 entryA chA (by decide)

/-- C3: `query_dblp` is total with an optional result: a raise at any step
(the search request with its JSON navigation, the hit-key extraction, the
record fetch, the BibTeX parse) is caught and becomes no result for that
title, logged with the triggering title; no exception propagates out, so a
per-entry failure cannot abort the run. -/
theorem c3_lookup_never_raises (title : String) (w : RemoteWorld) :
    (∀ e, w.search = Except.error e →
      query_dblp title w
        = (Option.none, ["Error querying DBLP for " ++ title ++ ": " ++ e]))
    ∧ (∀ e rest, w.search = Except.ok (Option.some (Except.error e :: rest)) →
      query_dblp title w
        = (Option.none, ["Error querying DBLP for " ++ title ++ ": " ++ e]))
    ∧ (∀ k rest e, w.search = Except.ok (Option.some (Except.ok k :: rest)) →
      w.fetch k = Except.error e →
      query_dblp title w
        = (Option.none, ["Error querying DBLP for " ++ title ++ ": " ++ e]))
    ∧ (∀ k rest body e, w.search = Except.ok (Option.some (Except.ok k :: rest)) →
      w.fetch k = Except.ok (200, body) → w.parseBib body = Except.error e →
      query_dblp title w
        = (Option.none, ["Error querying DBLP for " ++ title ++ ": " ++ e])) := by
  refine ⟨?_, ?_, ?_, ?_⟩
  · intro e he
    simp [query_dblp, he]
  · intro e rest he
    simp [query_dblp, he]
  · intro k rest e h1 h2
    simp [query_dblp, h1, h2]
  · intro k rest body e h1 h2 h3
    simp [query_dblp, h1, h2, h3]

/-- C3 witness: a raising search yields no result and one log line naming the
title. -/
theorem c3_witness :
    query_dblp "T" w0 = (Option.none, ["Error querying DBLP for T: boom"]) :=
  (c3_lookup_never_raises "T" w0).1 "boom" rfl

/-- C4: under throttling the modelled lookup client backs off for two to the
power of the attempt index plus one seconds after each throttled attempt and
retries; the attempt bound is fixed at 5, and exhausting all attempts yields
no result instead of an error. -/
theorem c4_rate_limit_backoff (w : RetryWorld) :
    MAX_ATTEMPTS = 5
    ∧ ((∀ i, i < MAX_ATTEMPTS → w.searchR i = SearchOutcome.rateLimited) →
        (lookup_retry w).1 = Option.none)
    ∧ (∀ a, a < MAX_ATTEMPTS → (∀ i, i ≤ a → w.searchR i = SearchOutcome.rateLimited) →
        TraceEv.sleep (2 ^ a + 1) ∈ (lookup_retry w).2)
    ∧ (∀ a, a + 1 < MAX_ATTEMPTS → (∀ i, i ≤ a → w.searchR i = SearchOutcome.rateLimited) →
        TraceEv.request (a + 1) ∈ (lookup_retry w).2) := by
  refine ⟨rfl, ?_, ?_, ?_⟩
  · intro h
    exact lookup_go_none w MAX_ATTEMPTS 0 (fun i _ h2 => h i (by omega))
  · intro a ha h
    exact lookup_go_sleep_mem w MAX_ATTEMPTS 0 a (Nat.zero_le a) (by omega)
      (fun i _ hi => h i hi)
  · intro a ha h
    exact lookup_go_request_mem w MAX_ATTEMPTS 0 (a + 1) (Nat.zero_le _) (by omega)
      (fun i _ hi => h i (by omega))

/-- C4 witness: under permanent throttling the run returns no result, sleeps
the attempt-3 backoff, and issues the retry request of attempt 4. -/
theorem c4_witness :
    (lookup_retry rlWorld).1 = Option.none
    ∧ TraceEv.sleep (2 ^ 3 + 1) ∈ (lookup_retry rlWorld).2
    ∧ TraceEv.request 4 ∈ (lookup_retry rlWorld).2 := by
  refine ⟨?_, ?_, ?_⟩
  · exact (c4_rate_limit_backoff rlWorld).2.1 (fun i _ => rfl)
  · exact (c4_rate_limit_backoff rlWorld).2.2.1 3 (by decide) (fun i _ => rfl)
  · exact (c4_rate_limit_backoff rlWorld).2.2.2 3 (by decide) (fun i _ => rfl)

/-- C5: in every trace of the modelled lookup client, every network call —
each search attempt and each record fetch — is immediately preceded by a
sleep of at least one second, on every request and not only after a
throttled one. -/
theorem c5_delay_before_every_request (w : RetryWorld) :
    requestsDelayed (lookup_retry w).2 = true :=
  requestsDelayed_go w MAX_ATTEMPTS 0

/-- C6: every field name of an entry emitted as `changed` belongs to
`REVERSED_KEYS`: the emitted entry is the whitelist-filtered remote record
with only the `ID` key rewritten, and `ID` is itself whitelisted. -/
theorem c6_whitelist_containment (lookup : String → Option Entry) (entry e : Entry)
    (h : reconcile lookup entry = StepResult.changed e) :
    ∀ p ∈ e, p.1 ∈ REVERSED_KEYS := by
  rcases reconcile_changed_inv lookup entry e h with ⟨q, _, _, he⟩
  subst he
  intro p hp
  rcases fst_mem_set (whitelistFilter q) "ID" (Entry.getD entry "ID" Val.none) p hp with
    h1 | h1
  · rw [h1]
    simp [REVERSED_KEYS]
  · exact fst_mem_whitelistFilter q p h1

/-- C6 witness at a concrete changed entry. -/
theorem c6_witness : ("title", Val.str "Bar").1 ∈ REVERSED_KEYS :=
  c6_whitelist_containment lkpA entryA chA (by decide) ("title", Val.str "Bar") (by decide)

/-- C7: if a field's local and remote values agree after stripping
surrounding braces and spaces from the string forms of both sides, no diff is
recorded for that field by `compare_entries`. -/
theorem c7_strip_insensitive (old_entry new_entry : Entry) (k : String)
    (h : ∀ v, (k, v) ∈ new_entry →
      pyStrip (pyStr (Entry.getD old_entry k (Val.str ""))) = pyStrip (pyStr v)) :
    (compare_entries old_entry new_entry).filter (fun p => p.1 == k) = [] := by
  rw [List.filter_eq_nil_iff]
  intro p hp
  rcases compare_mem_inv old_entry new_entry p hp with ⟨v, hv, _, hne⟩
  intro hk
  have hpk : p.1 = k := by simpa using hk
  rw [hpk] at hne hv
  exact hne (h v hv)

/-- C7 witness: a brace-wrapped local author and a space-padded remote author
compare equal, so no diff is recorded for the author field. -/
theorem c7_witness :
    (compare_entries [("author", Val.str "\x7bJane Doe\x7d")]
        [("author", Val.str " Jane Doe ")]).filter (fun p => p.1 == "author") = [] := by
  apply c7_strip_insensitive
  intro v hv
  have hv2 : v = Val.str " Jane Doe " :=
    congrArg Prod.snd (List.mem_singleton.mp hv)
  rw [hv2]
  decide

/-- C8: when the diff against the whitelist-filtered remote record is empty,
the entry is classified `unchanged` and the loop appends the original local
entry itself — with all of its fields, whitelisted or not — rather than the
filtered remote version. -/
theorem c8_unchanged_emits_local (lookup : String → Option Entry) (st : RunState)
    (entry q : Entry)
    (h1 : (Entry.getD entry "title" Val.none).falsy = false)
    (h2 : lookup (pyStr (Entry.getD entry "title" Val.none)) = Option.some q)
    (h3 : compare_entries entry (whitelistFilter q) = []) :
    reconcile lookup entry = StepResult.unchanged entry
    ∧ (process_one lookup st entry).updated_entries
        = st.updated_entries ++ [entry] := by
  have hr : reconcile lookup entry = StepResult.unchanged entry := by
    rw [reconcile_eq_of lookup entry q h1 h2, if_pos h3]
  exact ⟨hr, by simp [process_one, hr]⟩

/-- C8 witness: an entry with a non-whitelisted field is emitted whole when
the remote record matches its title. -/
theorem c8_witness :
    reconcile (fun _ => Option.some [("title", Val.str "T")])
        [("ID", Val.str "a1"), ("title", Val.str "T"), ("note", Val.str "keepme")]
      = StepResult.unchanged
          [("ID", Val.str "a1"), ("title", Val.str "T"), ("note", Val.str "keepme")]
    ∧ (process_one (fun _ => Option.some [("title", Val.str "T")]) initState
        [("ID", Val.str "a1"), ("title", Val.str "T"), ("note", Val.str "keepme")]).updated_entries
      = initState.updated_entries
          ++ [[("ID", Val.str "a1"), ("title", Val.str "T"), ("note", Val.str "keepme")]] :=
  c8_unchanged_emits_local (fun _ => Option.some [("title", Val.str "T")]) initState
    [("ID", Val.str "a1"), ("title", Val.str "T"), ("note", Val.str "keepme")]
    [("title", Val.str "T")] (by decide) rfl (by decide)

/-- C9: reconciling twice against the same remote oracle is idempotent on an
unchanged entry: the first run emits the entry itself, and the second run
classifies it `unchanged` again and emits the identical entry. -/
theorem c9_unchanged_idempotent (lookup : String → Option Entry) (entry e : Entry)
    (h : reconcile lookup entry = StepResult.unchanged e) :
    e = entry ∧ reconcile lookup e = StepResult.unchanged e := by
  have he : e = entry := reconcile_unchanged_inv lookup entry e h
  subst he
  exact ⟨rfl, h⟩

/-- C9 witness at a concrete unchanged entry. -/
theorem c9_witness :
    ([("ID", Val.str "b1"), ("title", Val.str "U")] : Entry)
        = [("ID", Val.str "b1"), ("title", Val.str "U")]
    ∧ reconcile (fun _ => Option.some [("title", Val.str "U")])
        [("ID", Val.str "b1"), ("title", Val.str "U")]
      = StepResult.unchanged [("ID", Val.str "b1"), ("title", Val.str "U")] :=
  c9_unchanged_idempotent (fun _ => Option.some [("title", Val.str "U")])
    [("ID", Val.str "b1"), ("title", Val.str "U")]
    [("ID", Val.str "b1"), ("title", Val.str "U")] (by decide)

/-- C10: `compare_entries` only ever records fields present in the remote
record — a whitelisted field present only locally produces no diff entry —
and a locally missing field is compared as the empty string, so a remote
field whose stripped value is nonempty yields a diff whose old value is
`None`. -/
theorem c10_diff_over_remote_fields (old_entry new_entry : Entry) (k : String) (v : Val) :
    (k ∉ new_entry.map Prod.fst →
      (compare_entries old_entry new_entry).filter (fun p => p.1 == k) = [])
    ∧ ((k, v) ∈ new_entry → k ∉ ignored_keys → List.lookup k old_entry = Option.none →
      pyStrip (pyStr v) ≠ "" →
      (k, Val.none, v) ∈ compare_entries old_entry new_entry) := by
  constructor
  · intro hk
    rw [List.filter_eq_nil_iff]
    intro p hp
    rcases compare_mem_inv old_entry new_entry p hp with ⟨w, hw, _, _⟩
    intro hbk
    have hpk : p.1 = k := by simpa using hbk
    rw [hpk] at hw
    exact hk (List.mem_map.mpr ⟨(k, w), hw, rfl⟩)
  · intro h1 h2 h3 h4
    apply List.mem_filterMap.mpr
    refine ⟨(k, v), h1, ?_⟩
    have hg : Entry.getD old_entry k (Val.str "") = Val.str "" := by
      simp [Entry.getD, h3]
    have hgn : Entry.getD old_entry k Val.none = Val.none := by
      simp [Entry.getD, h3]
    simp only [hg, hgn, if_neg h2]
    rw [if_pos]
    · exact fun hc => h4 hc.symm

/-- C10 witness: a field absent remotely records no diff, and a remote author
missing locally is diffed against the empty string with old value `None`. -/
theorem c10_witness :
    ((compare_entries [] [("author", Val.str "Y")]).filter (fun p => p.1 == "year") = [])
    ∧ ("author", Val.none, Val.str "Y") ∈ compare_entries [] [("author", Val.str "Y")] :=
  ⟨(c10_diff_over_remote_fields [] [("author", Val.str "Y")] "year" (Val.str "Y")).1
      (by decide),
   (c10_diff_over_remote_fields [] [("author", Val.str "Y")] "author" (Val.str "Y")).2
      (by decide) (by decide) (by decide) (by decide)⟩

end BibReplace
